import Mathlib

/-!
Shallow embedding of the two NZBGet post-processing scripts
(post-process-restoremod.py and post-process-restorecon.py) and proofs
about them.

Modelling conventions:
* permission modes are natural numbers (they are nonnegative in every
  reachable state); the one place where Python integer subtraction can go
  below the operand (0o666 - umask in restoremode) is computed in Int;
* a Python expression a and not-b over bit masks (a and the complement of
  b) is Nat.ldiff a b, which is bitwise a AND NOT b;
* filesystem writes are not performed but recorded as a list of FsOp
  values, in program order; a function that writes nothing returns [];
* per-path OS data (lstat and stat results, the process umask, extended
  ACL flags, SELinux contexts) is supplied through explicit state
  records, one field per OS query the code makes;
* the interpreter-level outcome of a script is an ExitKind: exited c for
  sys.exit(c), crashed e for an exception that escapes all handlers (the
  Python interpreter then terminates with status 1 after printing the
  traceback, so crashed e is distinct from every exited c);
* log output is recorded as the list of printed lines.
-/

/-! ## Common NZBGet utilities (identical in both scripts) -/

inductive NZBGetLogLevel where
  | detail
  | info
  | warning
  | error
deriving DecidableEq

/-- The string level.name.upper() used by nzbget_log. -/
def levelNameUpper : NZBGetLogLevel → String
  | NZBGetLogLevel.detail => "DETAIL"
  | NZBGetLogLevel.info => "INFO"
  | NZBGetLogLevel.warning => "WARNING"
  | NZBGetLogLevel.error => "ERROR"

/-- Split a character list at newline characters. -/
def splitNl : List Char → List (List Char)
  | [] => [[]]
  | c :: rest =>
    if c = '\n' then [] :: splitNl rest
    else
      match splitNl rest with
      | [] => [[c]]
      | l :: ls => (c :: l) :: ls

/-- Python str.rstrip(): remove trailing whitespace. -/
def pyRstrip (s : String) : String :=
  String.mk (((s.toList.reverse).dropWhile Char.isWhitespace).reverse)

/-- Python str.splitlines for strings whose only line separator is a bare
newline (the only separator occurring in these scripts, and their
messages are rstripped first, so no trailing separator remains): the
empty string yields no lines. -/
def pySplitlines (s : String) : List String :=
  if s = "" then [] else (splitNl s.toList).map String.mk

/-- nzbget_log(level, message, prefix): one printed line per line of
message.rstrip().splitlines(), each line being
"[LEVEL] " followed by the prefix argument and the line. -/
def nzbget_log (level : NZBGetLogLevel) (message : String) (pfx : String) : List String :=
  (pySplitlines (pyRstrip message)).map
    (fun line => "[" ++ levelNameUpper level ++ "] " ++ pfx ++ line)

inductive NZBGetPostProcessExitCode where
  | parcheck
  | success
  | failure
  | none
deriving DecidableEq

def NZBGetPostProcessExitCode.value : NZBGetPostProcessExitCode → Nat
  | NZBGetPostProcessExitCode.parcheck => 92
  | NZBGetPostProcessExitCode.success => 93
  | NZBGetPostProcessExitCode.failure => 94
  | NZBGetPostProcessExitCode.none => 95

/-- How a script run terminates: exited c models sys.exit(c); crashed e
models an exception of class e escaping every handler, after which the
Python interpreter aborts with status 1 (never with an NZBGet exit code). -/
inductive ExitKind where
  | exited (code : Nat)
  | crashed (exc : String)
deriving DecidableEq

/-- The message built by nzbget_variable (both scripts).  Python parses
the source expression
  "Variable ... required" + ", please upgrade ..." if version else "" + "."
as (A + B) if version else ("" + "."), because + binds tighter than the
conditional expression: with a version the message is the concatenation
without the final period, and without a version the whole message is just
".".  The subsequent .format substitutes key and version into the two
placeholders, which exist only in the version branch; format ignores
unused arguments. -/
def nzbget_variable_message (key : String) (version : Option String) : String :=
  match version with
  | Option.some v =>
      "Variable \"" ++ key ++ "\" required, please upgrade NZBGet to version "
        ++ v ++ " or later"
  | Option.none => "."

/-- nzbget_variable(key, version): returns the environment value, or logs
the (buggy, see nzbget_variable_message) error message and exits with the
failure code 94. -/
def nzbget_variable (env : String → Option String) (key : String)
    (version : Option String) : Except (List String × ExitKind) String :=
  match env key with
  | Option.some v => Except.ok v
  | Option.none =>
      Except.error
        (nzbget_log NZBGetLogLevel.error (nzbget_variable_message key version) "",
         ExitKind.exited NZBGetPostProcessExitCode.failure.value)

/-! ## stat constants and predicates (Python stat module) -/

def S_IFMT : Nat := 0o170000
def S_IFLNK : Nat := 0o120000
def S_IFDIR : Nat := 0o040000
def S_ISUID : Nat := 0o4000
def S_ISGID : Nat := 0o2000
def S_ISVTX : Nat := 0o1000

def S_ISLNK (m : Nat) : Bool := m &&& S_IFMT == S_IFLNK
def S_ISDIR (m : Nat) : Bool := m &&& S_IFMT == S_IFDIR

/-! ## Process umask (post-process-restoremod.py) -/

/-- os.umask(m): returns the previous process umask and installs
m AND 0o777 (the kernel keeps only the low nine bits). -/
def os_umask (m : Nat) (s : Nat) : Nat × Nat := (s, m &&& 0o777)

/-- umask_get(): reads the umask by setting it to 0, restores it, and
returns it restricted to 0o777.  First component: return value; second:
the process umask after the call. -/
def umask_get (s : Nat) : Nat × Nat :=
  let r1 := os_umask 0 s
  let umask_current := r1.1
  let r2 := os_umask umask_current r1.2
  (umask_current &&& 0o777, r2.2)

/-! ## Recorded filesystem operations and the POSIX.1e ACL model -/

inductive AclTag where
  | userObj
  | user
  | groupObj
  | group
  | mask
  | other
deriving DecidableEq

/-- One ACL entry: its tag and its permission set (read, write, execute).
permset.delete(ACL_EXECUTE) clears the exec flag. -/
structure AclEntry where
  tag : AclTag
  readP : Bool
  writeP : Bool
  execP : Bool
deriving DecidableEq

inductive AclType where
  | access
  | dflt
deriving DecidableEq

inductive FsOp where
  | chmod (path : String) (mode : Int)
  | aclApply (path : String) (kind : AclType) (acl : List AclEntry)
  | aclDeleteDefault (path : String)
  | setfilecon (path : String) (context : String)
deriving DecidableEq

/-- Per-path OS data read by the permission-restoration functions:
lmode is os.lstat(path).st_mode, smode is os.stat(path).st_mode (the mode
of the link target when path is a symbolic link), umask is the process
umask, hasExtended is posix1e.has_extended(path). -/
structure PathState where
  lmode : Nat
  smode : Nat
  umask : Nat
  hasExtended : Bool
deriving DecidableEq

/-- acl_has_mask(acl): whether some entry has tag ACL_MASK. -/
def acl_has_mask (acl : List AclEntry) : Bool :=
  acl.any (fun e => e.tag == AclTag.mask)

/-- restoremode(path, followlinks, mask) from post-process-restoremod.py
lines 121-134.  The file branch computes 0o666 - umask with Python
integer subtraction (kept in Int here; it is NOT the same as clearing the
umask bits when the umask has execute bits).  The directory branch
computes (0o777 - umask) OR (stat-mode AND mask); since umask_get
returns at most 0o777, that subtraction never borrows, so it is computed
in Nat. -/
def restoremode (st : PathState) (path : String) (followlinks : Bool)
    (mask : Option Nat) : List FsOp :=
  let mask_mask := S_ISUID ||| S_ISGID
  let m := match mask with
    | Option.none => mask_mask
    | Option.some v => v &&& mask_mask
  if S_ISLNK st.lmode && !followlinks then []
  else
    let mode_stat := st.smode
    let umask := (umask_get st.umask).1
    if S_ISDIR mode_stat then
      let mode_attr := mode_stat &&& m
      [FsOp.chmod path (((0o777 - umask) ||| mode_attr : Nat) : Int)]
    else
      [FsOp.chmod path ((0o666 : Int) - (umask : Int))]

/-- restoreattr(path, followlinks, mask) from post-process-restoremod.py
lines 148-161. -/
def restoreattr (st : PathState) (path : String) (followlinks : Bool)
    (mask : Option Nat) : List FsOp :=
  let mask_attr := S_ISUID ||| S_ISGID ||| S_ISVTX
  let mask_excl := match mask with
    | Option.none => S_ISGID
    | Option.some v => v &&& mask_attr
  if S_ISLNK st.lmode && !followlinks then []
  else
    let mode_stat := st.smode
    let mode_perm :=
      if S_ISDIR mode_stat then Nat.ldiff mode_stat (Nat.ldiff mask_attr mask_excl)
      else Nat.ldiff mode_stat mask_attr
    let mode_perm := 0o7777 &&& mode_perm
    if mode_perm != mode_stat &&& 0o7777 then [FsOp.chmod path (mode_perm : Int)]
    else []

/-- inheritattr(mode, path, mask) from post-process-restoremod.py lines
175-184.  It only ever consults os.lstat and returns at once when that
mode is not a directory (so in particular for every symbolic link). -/
def inheritattr (mode : Nat) (st : PathState) (path : String)
    (mask : Option Nat) : List FsOp :=
  let mask_attr := S_ISUID ||| S_ISGID ||| S_ISVTX
  let mask_incl := match mask with
    | Option.none => S_ISGID
    | Option.some v => v &&& mask_attr
  let mode_stat := st.lmode
  if !(S_ISDIR mode_stat) then []
  else
    let mode_perm := Nat.ldiff mode_stat mask_incl ||| (mode &&& mask_incl)
    let mode_perm := 0o7777 &&& mode_perm
    if mode_perm != mode_stat &&& 0o7777 then [FsOp.chmod path (mode_perm : Int)]
    else []

/-- inheritdacl(acl, path) from post-process-restoremod.py lines 193-210:
returns at once on symbolic links; otherwise, for non-directories,
deletes ACL_EXECUTE from every entry that is not mask-covered (or from
all entries when the ACL has no mask entry), then applies the ACL as the
access ACL, and also as the default ACL for directories. -/
def inheritdacl (acl : List AclEntry) (st : PathState) (path : String) : List FsOp :=
  let mode_stat := st.lmode
  if S_ISLNK mode_stat then []
  else
    let aclMasked := acl_has_mask acl
    let isMaskedTag : AclTag → Bool := fun t =>
      t == AclTag.user || t == AclTag.groupObj || t == AclTag.group
    let acl2 :=
      if !(S_ISDIR mode_stat) then
        acl.map (fun e =>
          if !(isMaskedTag e.tag) || !aclMasked then
            AclEntry.mk e.tag e.readP e.writeP false
          else e)
      else acl
    FsOp.aclApply path AclType.access acl2
      :: (if S_ISDIR mode_stat then [FsOp.aclApply path AclType.dflt acl2] else [])

/-- discardeacl(path, followlinks) from post-process-restoremod.py lines
213-233 (hasExtendedCheck is the library constant
posix1e.HAS_EXTENDED_CHECK; os.path.islink is S_ISLNK of the lstat
mode).  Applies an empty ACL and deletes the default ACL. -/
def discardeacl (hasExtendedCheck : Bool) (st : PathState) (path : String)
    (followlinks : Bool) : List FsOp :=
  if S_ISLNK st.lmode && !followlinks then []
  else if hasExtendedCheck && !st.hasExtended then []
  else [FsOp.aclApply path AclType.access [], FsOp.aclDeleteDefault path]

/-- restore_from_ps(mode, path) from post-process-restoremod.py lines
235-238. -/
def restore_from_ps (hasExtendedCheck : Bool) (mode : Nat) (st : PathState)
    (path : String) : List FsOp :=
  restoremode st path false (Option.some S_ISGID)
    ++ inheritattr mode st path Option.none
    ++ discardeacl hasExtendedCheck st path false

/-- restore_from_fs(acl, mode, path) from post-process-restoremod.py
lines 240-243. -/
def restore_from_fs (acl : List AclEntry) (mode : Nat) (st : PathState)
    (path : String) : List FsOp :=
  restoreattr st path false Option.none
    ++ inheritattr mode st path Option.none
    ++ inheritdacl acl st path

/-! ## The per-path outcome abstraction and the main loops

The per-path call restore_permissions(path) (restoremod) or
restorecon_single(path) (restorecon) interacts with the OS, so its result
for each walked path is supplied by the environment: either a normal
return carrying the recorded writes, or one of the exception classes the
loop distinguishes. -/

inductive RMOutcome where
  | ok (ops : List FsOp)
  | fileNotFound
  | permission
  | other
deriving DecidableEq

inductive RCOutcome where
  | ok (ops : List FsOp)
  | fileNotFound
  | labelNotFound
  | permission
  | other
deriving DecidableEq

def rmOkOrPerm : RMOutcome → Bool
  | RMOutcome.ok _ => true
  | RMOutcome.permission => true
  | _ => false

def rcOkOrPerm : RCOutcome → Bool
  | RCOutcome.ok _ => true
  | RCOutcome.permission => true
  | _ => false

/-- Result of traceback.format_exception applied to zero arguments, as
both scripts call it in their generic exception handler.  In every
Python version since 3.4 the first parameter of format_exception is
required (3.4-3.9: format_exception(etype, value, tb, ...); 3.10+:
format_exception(exc, /, ...)), so the zero-argument call itself raises
TypeError before anything is logged.  Modelled from the Python standard
library signature. -/
def format_exception_noargs : Except String (List String) :=
  Except.error "TypeError"

structure LoopResult where
  logs : List String
  exit : ExitKind
  ops : List FsOp
deriving DecidableEq

/-- The restoremod main loop (post-process-restoremod.py lines 334-351)
over the walked paths, followed by nzbget_exit(success).  The generic
except-Exception branch evaluates traceback.format_exception() before
reaching any nzbget_log call; that evaluation raises, and the new
exception escapes the except block, so the run crashes (were the call to
return a list, the following nzbget_log would call .rstrip() on a list
and raise AttributeError instead). -/
def rmLoop (f : String → RMOutcome) : List String → LoopResult
  | [] => LoopResult.mk [] (ExitKind.exited NZBGetPostProcessExitCode.success.value) []
  | p :: rest =>
    match f p with
    | RMOutcome.ok ops =>
        let r := rmLoop f rest
        LoopResult.mk r.logs r.exit (ops ++ r.ops)
    | RMOutcome.fileNotFound =>
        LoopResult.mk
          (nzbget_log NZBGetLogLevel.error
            ("Expected path \"" ++ p ++ "\" does not exist, aborting.") "")
          (ExitKind.exited NZBGetPostProcessExitCode.failure.value) []
    | RMOutcome.permission =>
        let r := rmLoop f rest
        LoopResult.mk
          (nzbget_log NZBGetLogLevel.warning
            ("Permission denied for \"" ++ p ++ "\", skipping.") "" ++ r.logs)
          r.exit r.ops
    | RMOutcome.other =>
        match format_exception_noargs with
        | Except.error e => LoopResult.mk [] (ExitKind.crashed e) []
        | Except.ok _ => LoopResult.mk [] (ExitKind.crashed "AttributeError") []

/-- The restorecon main loop (post-process-restorecon.py lines 143-163),
identical except for the additional LabelNotFoundError handler. -/
def rcLoop (f : String → RCOutcome) : List String → LoopResult
  | [] => LoopResult.mk [] (ExitKind.exited NZBGetPostProcessExitCode.success.value) []
  | p :: rest =>
    match f p with
    | RCOutcome.ok ops =>
        let r := rcLoop f rest
        LoopResult.mk r.logs r.exit (ops ++ r.ops)
    | RCOutcome.fileNotFound =>
        LoopResult.mk
          (nzbget_log NZBGetLogLevel.error
            ("Expected path \"" ++ p ++ "\" does not exist, aborting.") "")
          (ExitKind.exited NZBGetPostProcessExitCode.failure.value) []
    | RCOutcome.labelNotFound =>
        let r := rcLoop f rest
        LoopResult.mk
          (nzbget_log NZBGetLogLevel.warning
            ("No default SELinux context for \"" ++ p ++ "\", skipping.") "" ++ r.logs)
          r.exit r.ops
    | RCOutcome.permission =>
        let r := rcLoop f rest
        LoopResult.mk
          (nzbget_log NZBGetLogLevel.warning
            ("Permission denied for \"" ++ p ++ "\", skipping.") "" ++ r.logs)
          r.exit r.ops
    | RCOutcome.other =>
        match format_exception_noargs with
        | Except.error e => LoopResult.mk [] (ExitKind.crashed e) []
        | Except.ok _ => LoopResult.mk [] (ExitKind.crashed "AttributeError") []

/-! ## The restoremod script body -/

inductive RestoreChoice where
  | fromFs
  | fromPs
deriving DecidableEq

/-- Environment of one restoremod run: the process environment, the
result of os.path.isdir(directory), the resolved destination
os.path.realpath(directory), whether str(posix1e.ACL(filedef=realdir))
is non-empty, the library constant posix1e.HAS_ACL_ENTRY, the list
produced by descendants(realdir, handler), and the per-path outcome of
the selected restore_permissions partial application
(RestoreChoice.fromFs for functools.partial(restore_from_fs, dacl, mode),
RestoreChoice.fromPs for functools.partial(restore_from_ps, mode)). -/
structure RMWorld where
  env : String → Option String
  isdir : Bool
  realdir : String
  daclNonempty : Bool
  hasAclEntry : Bool
  paths : List String
  outcome : RestoreChoice → String → RMOutcome

/-- Result of a restoremod run; choice records which restore_permissions
partial application was assigned before walking (Option.none when the
script exits before the assignment). -/
structure ScriptResult where
  logs : List String
  exit : ExitKind
  ops : List FsOp
  choice : Option RestoreChoice
deriving DecidableEq

/-- post-process-restoremod.py lines 292-351. -/
def rmMain (w : RMWorld) : ScriptResult :=
  match nzbget_variable w.env "NZBPP_TOTALSTATUS" (Option.some "13.0") with
  | Except.error le => ScriptResult.mk le.1 le.2 [] Option.none
  | Except.ok status =>
    if status ≠ "SUCCESS" then
      ScriptResult.mk
        (nzbget_log NZBGetLogLevel.info
          ("Download failed with status " ++ status ++ ", skipping.") "")
        (ExitKind.exited NZBGetPostProcessExitCode.none.value) [] Option.none
    else
      match nzbget_variable w.env "NZBPP_DIRECTORY" Option.none with
      | Except.error le => ScriptResult.mk le.1 le.2 [] Option.none
      | Except.ok dir =>
        if !w.isdir then
          ScriptResult.mk
            (nzbget_log NZBGetLogLevel.info
              ("Nothing to post-process, destination directory \"" ++ dir
                ++ "\" doesn\x27t exist.") "")
            (ExitKind.exited NZBGetPostProcessExitCode.none.value) [] Option.none
        else if w.daclNonempty then
          if !w.hasAclEntry then
            ScriptResult.mk
              (nzbget_log NZBGetLogLevel.error
                ("Unable to alter ACLs: detected default ACL on \""
                  ++ w.realdir ++ "\"") "")
              (ExitKind.exited NZBGetPostProcessExitCode.failure.value) []
              (Option.some RestoreChoice.fromFs)
          else
            let r := rmLoop (w.outcome RestoreChoice.fromFs) w.paths
            ScriptResult.mk
              (nzbget_log NZBGetLogLevel.info
                ("Using default ACL to restore permissions of \""
                  ++ w.realdir ++ "\"") "" ++ r.logs)
              r.exit r.ops (Option.some RestoreChoice.fromFs)
        else
          let r := rmLoop (w.outcome RestoreChoice.fromPs) w.paths
          ScriptResult.mk
            (nzbget_log NZBGetLogLevel.info
              ("Using process umask to restore permissions of \""
                ++ w.realdir ++ "\"") "" ++ r.logs)
            r.exit r.ops (Option.some RestoreChoice.fromPs)

/-! ## The restorecon script body -/

/-- Environment of one restorecon run: the process environment, the
result of os.path.exists(directory), the walked paths, and the per-path
outcome of restorecon_single. -/
structure RCWorld where
  env : String → Option String
  pathExists : Bool
  paths : List String
  outcome : String → RCOutcome

/-- post-process-restorecon.py lines 128-163. -/
def rcMain (w : RCWorld) : LoopResult :=
  match nzbget_variable w.env "NZBPP_TOTALSTATUS" (Option.some "13.0") with
  | Except.error le => LoopResult.mk le.1 le.2 []
  | Except.ok status =>
    if status ≠ "SUCCESS" then
      LoopResult.mk
        (nzbget_log NZBGetLogLevel.info
          ("Download failed with status " ++ status ++ ", skipping.") "")
        (ExitKind.exited NZBGetPostProcessExitCode.none.value) []
    else
      match nzbget_variable w.env "NZBPP_DIRECTORY" Option.none with
      | Except.error le => LoopResult.mk le.1 le.2 []
      | Except.ok dir =>
        if !w.pathExists then
          LoopResult.mk
            (nzbget_log NZBGetLogLevel.info
              ("Nothing to post-process, destination \"" ++ dir
                ++ "\" doesn\x27t exist.") "")
            (ExitKind.exited NZBGetPostProcessExitCode.none.value) []
        else rcLoop w.outcome w.paths

/-! ## restorecon_single and its SELinux bindings -/

inductive PyExc where
  | fileNotFound
  | labelNotFound
deriving DecidableEq

/-- Per-run SELinux filesystem view: lstatMode p is os.lstat(p) (none
models FileNotFoundError), realpath p is
os.path.realpath(os.path.expanduser(p)), defaultContext p m is the raw
selinux.matchpathcon(p, m) result (none models its FileNotFoundError),
pathExists p is os.path.exists(p), getContext p is selinux.lgetfilecon(p). -/
structure SEWorld where
  lstatMode : String → Option Nat
  realpath : String → String
  defaultContext : String → Nat → Option String
  pathExists : String → Bool
  getContext : String → String

/-- The matchpathcon wrapper of post-process-restorecon.py lines 46-55:
converts the FileNotFoundError that selinux.matchpathcon raises for an
existing but unlabelled path into LabelNotFoundError, and re-raises it
unchanged for a missing path. -/
def matchpathcon (w : SEWorld) (path : String) (mode : Nat) : Except PyExc String :=
  match w.defaultContext path mode with
  | Option.some c => Except.ok c
  | Option.none =>
      if w.pathExists path then Except.error PyExc.labelNotFound
      else Except.error PyExc.fileNotFound

/-- restorecon_single(path) from post-process-restorecon.py lines 60-72:
lstat the path (falling back to the resolved real path when the first
lstat raises FileNotFoundError), look up the default context, read the
current context, and write the default context only when the two differ. -/
def restorecon_single (w : SEWorld) (path : String) : Except PyExc (List FsOp) :=
  match (match w.lstatMode path with
         | Option.some m => Except.ok (path, m)
         | Option.none =>
             let p2 := w.realpath path
             match w.lstatMode p2 with
             | Option.some m => Except.ok (p2, m)
             | Option.none => (Except.error PyExc.fileNotFound : Except PyExc (String × Nat))) with
  | Except.error e => Except.error e
  | Except.ok pm =>
    match matchpathcon w pm.1 pm.2 with
    | Except.error e => Except.error e
    | Except.ok context_default =>
      let context_old := w.getContext pm.1
      Except.ok
        (if context_old ≠ context_default then [FsOp.setfilecon pm.1 context_default]
         else [])

/-- The world after the writes of a first restorecon_single run on path:
only the stored context of that path changes (to the written value);
lstat data and the matchpathcon database are unchanged. -/
def setContext (w : SEWorld) (p : String) (c : String) : SEWorld :=
  SEWorld.mk w.lstatMode w.realpath w.defaultContext w.pathExists
    (fun q => if q = p then c else w.getContext q)

/-! ## descendants and the directory-tree model

The filesystem tree is a mutual inductive (a tree and a forest of
children) so that every function below is compiled by structural
recursion and reduces inside the kernel.  Paths are modelled as lists of
path segments; os.path.join(dirpath, name) appends one segment. -/

mutual
inductive FSTree where
  | file (nm : String)
  | dir (nm : String) (children : FSForest)
inductive FSForest where
  | nil
  | cons (hd : FSTree) (tl : FSForest)
end

abbrev FsPath := List String

def treeName : FSTree → String
  | FSTree.file nm => nm
  | FSTree.dir nm _ => nm

def treeIsDir : FSTree → Bool
  | FSTree.file _ => false
  | FSTree.dir _ _ => true

def forestNames : FSForest → List String
  | FSForest.nil => []
  | FSForest.cons c cs => treeName c :: forestNames cs

/-- The dirnames component of an os.walk triple: names of the directory
children, in order. -/
def dirEntryNames : FSForest → List String
  | FSForest.nil => []
  | FSForest.cons c cs => (if treeIsDir c then [treeName c] else []) ++ dirEntryNames cs

/-- The filenames component of an os.walk triple: names of the
non-directory children, in order. -/
def fileEntryNames : FSForest → List String
  | FSForest.nil => []
  | FSForest.cons c cs => (if treeIsDir c then [] else [treeName c]) ++ fileEntryNames cs

mutual
/-- os.walk(path, onerror) in top-down mode over the modelled tree:
walking a non-directory yields no triples; walking a directory yields
(path, dirnames, filenames) and then the triples of each subdirectory in
order.  walkF folds over all children; a file child contributes nothing,
exactly as os.walk recurses only into dirnames. -/
def walk : FsPath → FSTree → List (FsPath × List String × List String)
  | _, FSTree.file _ => []
  | p, FSTree.dir _ cs => (p, dirEntryNames cs, fileEntryNames cs) :: walkF p cs
def walkF : FsPath → FSForest → List (FsPath × List String × List String)
  | _, FSForest.nil => []
  | p, FSForest.cons c cs => walk (p ++ [treeName c]) c ++ walkF p cs
end

/-- The paths yielded from one os.walk triple by the descendants loop:
for name in itertools.chain(dirnames, filenames): join(dirpath, name). -/
def triplePaths (t : FsPath × List String × List String) : List FsPath :=
  (t.2.1 ++ t.2.2).map (fun nm => t.1 ++ [nm])

/-- descendants(path) from post-process-restoremod.py lines 85-90 and
post-process-restorecon.py lines 112-117 (the two definitions are
textually identical): yield the root path, then for every os.walk triple
the joined child paths. -/
def descendants (p : FsPath) (t : FSTree) : List FsPath :=
  p :: (walk p t).flatMap triplePaths

def walkFlat (p : FsPath) (t : FSTree) : List FsPath :=
  (walk p t).flatMap triplePaths

def walkFlatF (p : FsPath) (cs : FSForest) : List FsPath :=
  (walkF p cs).flatMap triplePaths

mutual
/-- Specification-side enumeration (written from the claim, for
comparison with descendants): the path of a node and, below a directory,
the path of every node strictly below it. -/
def nodePaths : FsPath → FSTree → List FsPath
  | p, FSTree.file _ => [p]
  | p, FSTree.dir _ cs => p :: nodePathsF p cs
def nodePathsF : FsPath → FSForest → List FsPath
  | _, FSForest.nil => []
  | p, FSForest.cons c cs => nodePaths (p ++ [treeName c]) c ++ nodePathsF p cs
end

mutual
/-- Every directory node of the tree, listed as (its path, the names of
its children). -/
def dirNodes : FsPath → FSTree → List (FsPath × List String)
  | _, FSTree.file _ => []
  | p, FSTree.dir _ cs => (p, forestNames cs) :: dirNodesF p cs
def dirNodesF : FsPath → FSForest → List (FsPath × List String)
  | _, FSForest.nil => []
  | p, FSForest.cons c cs => dirNodes (p ++ [treeName c]) c ++ dirNodesF p cs
end

def namesDistinct : List String → Bool
  | [] => true
  | s :: ss => !(List.elem s ss) && namesDistinct ss

mutual
/-- A realisable directory tree: sibling names are distinct at every
level (two directory entries of one directory cannot share a name). -/
def wellFormed : FSTree → Bool
  | FSTree.file _ => true
  | FSTree.dir _ cs => namesDistinct (forestNames cs) && wellFormedF cs
def wellFormedF : FSForest → Bool
  | FSForest.nil => true
  | FSForest.cons c cs => wellFormed c && wellFormedF cs
end

/-! ## Concrete instances used by the closed evaluation and witness
theorems -/

/-- Environment of a successful download into /d. -/
def envOk : String → Option String := fun k =>
  if k = "NZBPP_TOTALSTATUS" then Option.some "SUCCESS"
  else if k = "NZBPP_DIRECTORY" then Option.some "/d" else Option.none

/-- Environment with a successful status but NZBPP_DIRECTORY unset. -/
def envNoDir : String → Option String := fun k =>
  if k = "NZBPP_TOTALSTATUS" then Option.some "SUCCESS" else Option.none

/-- Environment of a failed download. -/
def envFailed : String → Option String := fun k =>
  if k = "NZBPP_TOTALSTATUS" then Option.some "FAILURE"
  else if k = "NZBPP_DIRECTORY" then Option.some "/d" else Option.none

/-- A small concrete tree: dst/ containing directory a (with file x) and
file f. -/
def tW : FSTree :=
  FSTree.dir "dst"
    (FSForest.cons (FSTree.dir "a" (FSForest.cons (FSTree.file "x") FSForest.nil))
      (FSForest.cons (FSTree.file "f") FSForest.nil))

/-- A concrete SELinux view: every path exists, is a regular file with a
stored context differing from the default context. -/
def seW : SEWorld :=
  SEWorld.mk (fun _ => Option.some 0o100644) (fun p => p)
    (fun _ _ => Option.some "system_u:object_r:user_home_t:s0")
    (fun _ => true) (fun _ => "unconfined_u:object_r:user_tmp_t:s0")

/-- A concrete path state of a symbolic link (to a regular file). -/
def linkSt : PathState := PathState.mk 0o120777 0o100644 0o022 true

/-- A concrete path state of a regular file. -/
def fileSt : PathState := PathState.mk 0o100644 0o100644 0o022 false

/-- A per-path outcome map for restoremod runs: permission denied on
/d/a, success elsewhere. -/
def rmOutW : RestoreChoice → String → RMOutcome := fun _ p =>
  if p = "/d/a" then RMOutcome.permission else RMOutcome.ok []

/-- A per-path outcome map for restorecon runs: permission denied on
/d/a, success elsewhere. -/
def rcOutW : String → RCOutcome := fun p =>
  if p = "/d/a" then RCOutcome.permission else RCOutcome.ok []

/-- The children of a forest as a list, for stating membership. -/
def forestTrees : FSForest → List FSTree
  | FSForest.nil => []
  | FSForest.cons c cs => c :: forestTrees cs

/-- Whether a printed line is an info-level line (starts with the
"[INFO] " tag). -/
def isInfoLine (l : String) : Bool :=
  l.toList.take 7 == "[INFO] ".toList

/-! # Theorems -/

/-- C9: umask_get returns the current process umask restricted to the
bits 0o777, and the process umask observable after the call equals the
one observable before it (every reachable umask already satisfies
s AND 0o777 = s, since the kernel masks each installed value). -/
theorem umask_get_spec (s : Nat) (h : s &&& 0o777 = s) :
    (umask_get s).1 = s &&& 0o777 ∧ (umask_get s).2 = s := by
  constructor
  · rfl
  · simpa [umask_get, os_umask] using h

theorem umask_get_spec_witness :
    (0o022 &&& 0o777 = 0o022)
      ∧ ((umask_get 0o022).1 = 0o022 &&& 0o777 ∧ (umask_get 0o022).2 = 0o022) :=
  ⟨by decide, umask_get_spec 0o022 (by decide)⟩

/-- C1 (code bug): in process-umask mode the claim (and the chmod
utility, which the source comment says restoremode duplicates) gives a
non-directory the permission bits 0o666 AND NOT umask, but restoremode
computes the Python subtraction 0o666 - umask, which differs whenever
the umask has execute bits.  At umask 0o011 a regular file receives mode
0o655 instead of the claimed 0o666 AND NOT 0o011 = 0o666.  The
directory branch does match the claim at the same umask (last conjunct):
0o777 - umask never borrows. -/
theorem restoremode_file_umask_bug :
    restoremode (PathState.mk 0o100644 0o100644 0o011 false) "f" false
        (Option.some S_ISGID)
      = [FsOp.chmod "f" 0o655]
    ∧ (0o666 &&& (0o777 ^^^ 0o011) : Nat) = 0o666
    ∧ ((0o655 : Int) ≠ ((0o666 &&& (0o777 ^^^ 0o011) : Nat) : Int))
    ∧ restoremode (PathState.mk 0o042755 0o042755 0o011 false) "d" false
        (Option.some S_ISGID)
      = [FsOp.chmod "d" ((((0o777 ^^^ 0o011) ||| S_ISGID : Nat)) : Int)] := by
  decide

/-- C10: in both restoration modes a walked symbolic link is never
modified (and, since the conclusion holds for every PathState whose
lstat mode is a link, regardless of the smode and hasExtended fields
that describe the link target, the target is never consulted), and
inheritattr leaves every non-directory path entirely unchanged. -/
theorem symlink_frame (hec : Bool) (acl : List AclEntry) (mode : Nat)
    (st : PathState) (path : String) (hl : S_ISLNK st.lmode = true) :
    restore_from_ps hec mode st path = []
    ∧ restore_from_fs acl mode st path = []
    ∧ (∀ st2 : PathState, S_ISDIR st2.lmode = false →
        ∀ msk, inheritattr mode st2 path msk = []) := by
  have hfmt : st.lmode &&& S_IFMT = S_IFLNK := by
    simpa [S_ISLNK] using hl
  have hd : S_ISDIR st.lmode = false := by
    unfold S_ISDIR
    rw [hfmt]
    decide
  refine ⟨?_, ?_, ?_⟩
  · simp [restore_from_ps, restoremode, inheritattr, discardeacl, hl, hd]
  · simp [restore_from_fs, restoreattr, inheritattr, inheritdacl, hl, hd]
  · intro st2 hd2 msk
    simp [inheritattr, hd2]

theorem symlink_frame_witness :
    S_ISLNK linkSt.lmode = true
    ∧ restore_from_ps true 0o2775 linkSt "l" = []
    ∧ restore_from_fs [] 0o2775 linkSt "l" = []
    ∧ S_ISDIR fileSt.lmode = false
    ∧ inheritattr 0o2775 fileSt "f" Option.none = [] :=
  ⟨by decide,
   (symlink_frame true [] 0o2775 linkSt "l" (by decide)).1,
   (symlink_frame true [] 0o2775 linkSt "l" (by decide)).2.1,
   by decide,
   (symlink_frame true [] 0o2775 linkSt "f" (by decide)).2.2 fileSt (by decide)
     Option.none⟩

/-- C8: when the first lstat succeeds and matchpathcon returns a default
context, restorecon_single writes exactly that context when the current
context differs, writes nothing when they are equal, and — after the
first run's write is applied to the stored context, the tree otherwise
unchanged — a second run writes nothing (idempotence). -/
theorem restorecon_single_spec (w : SEWorld) (path : String) (m : Nat)
    (cdef : String)
    (hl : w.lstatMode path = Option.some m)
    (hd : w.defaultContext path m = Option.some cdef) :
    (w.getContext path ≠ cdef →
      restorecon_single w path = Except.ok [FsOp.setfilecon path cdef])
    ∧ (w.getContext path = cdef → restorecon_single w path = Except.ok [])
    ∧ restorecon_single (setContext w path cdef) path = Except.ok [] := by
  refine ⟨?_, ?_, ?_⟩
  · intro h
    simp [restorecon_single, matchpathcon, hl, hd, h]
  · intro h
    simp [restorecon_single, matchpathcon, hl, hd, h]
  · simp [restorecon_single, matchpathcon, setContext, hl, hd]

theorem restorecon_single_spec_witness :
    seW.lstatMode "/d/p" = Option.some 0o100644
    ∧ seW.defaultContext "/d/p" 0o100644
        = Option.some "system_u:object_r:user_home_t:s0"
    ∧ restorecon_single seW "/d/p"
        = Except.ok [FsOp.setfilecon "/d/p" "system_u:object_r:user_home_t:s0"]
    ∧ restorecon_single (setContext seW "/d/p" "system_u:object_r:user_home_t:s0")
        "/d/p" = Except.ok [] :=
  ⟨rfl, rfl,
   (restorecon_single_spec seW "/d/p" 0o100644 "system_u:object_r:user_home_t:s0"
      rfl rfl).1 (by decide),
   (restorecon_single_spec seW "/d/p" 0o100644 "system_u:object_r:user_home_t:s0"
      rfl rfl).2.2⟩

/-- C2 (code bug): when restoring a path raises an exception other than
the specifically handled ones, the generic handler evaluates
traceback.format_exception() with no arguments, which itself raises
TypeError before any nzbget_log call; the TypeError escapes the handler,
so the interpreter aborts (status 1) with nothing logged, instead of
logging the claimed message and exiting 94.  Evaluated here for both
scripts, at script level for restoremod. -/
theorem unhandled_exception_crashes :
    rmLoop (fun _ => RMOutcome.other) ["/d/p"]
      = LoopResult.mk [] (ExitKind.crashed "TypeError") []
    ∧ rcLoop (fun _ => RCOutcome.other) ["/d/p"]
      = LoopResult.mk [] (ExitKind.crashed "TypeError") []
    ∧ rmMain (RMWorld.mk envOk true "/d" false true ["/d"]
        (fun _ _ => RMOutcome.other))
      = ScriptResult.mk ["[INFO] Using process umask to restore permissions of \"/d\""]
          (ExitKind.crashed "TypeError") [] (Option.some RestoreChoice.fromPs)
    ∧ ExitKind.crashed "TypeError"
        ≠ ExitKind.exited NZBGetPostProcessExitCode.failure.value := by
  decide

/-- C3 (code bug): with NZBPP_DIRECTORY unset (a variable for which no
minimum version is passed), the operator-precedence slip in
nzbget_variable makes the whole message the string ".", so both scripts
log only "[ERROR] ." — a line that does not identify the missing
variable — and exit 94.  The version branch (NZBPP_TOTALSTATUS) does
name the variable and the version, as the last conjunct shows. -/
theorem missing_variable_message_bug :
    rmMain (RMWorld.mk envNoDir false "/d" false true []
        (fun _ _ => RMOutcome.ok []))
      = ScriptResult.mk ["[ERROR] ."] (ExitKind.exited 94) [] Option.none
    ∧ rcMain (RCWorld.mk envNoDir false [] (fun _ => RCOutcome.ok []))
      = LoopResult.mk ["[ERROR] ."] (ExitKind.exited 94) []
    ∧ nzbget_variable (fun _ => Option.none) "NZBPP_TOTALSTATUS"
        (Option.some "13.0")
      = Except.error
          (["[ERROR] Variable \"NZBPP_TOTALSTATUS\" required, please upgrade NZBGet to version 13.0 or later"],
           ExitKind.exited 94) := by
  refine ⟨by decide, by decide, rfl⟩

/-- C5: a run whose NZBPP_TOTALSTATUS is set to a value other than
SUCCESS, and a run reaching the destination check with an absent
destination (restoremod: os.path.isdir false; restorecon: os.path.exists
false), logs an info line, exits with code 95 (none) and records no
filesystem write; the last conjunct shows every line nzbget_log emits at
info level carries the "[INFO] " tag. -/
theorem skip_runs_spec (w : RMWorld) (v : RCWorld) (s d ds : String) :
    (w.env "NZBPP_TOTALSTATUS" = Option.some s → s ≠ "SUCCESS" →
      rmMain w = ScriptResult.mk
        (nzbget_log NZBGetLogLevel.info
          ("Download failed with status " ++ s ++ ", skipping.") "")
        (ExitKind.exited NZBGetPostProcessExitCode.none.value) [] Option.none)
    ∧ (v.env "NZBPP_TOTALSTATUS" = Option.some s → s ≠ "SUCCESS" →
      rcMain v = LoopResult.mk
        (nzbget_log NZBGetLogLevel.info
          ("Download failed with status " ++ s ++ ", skipping.") "")
        (ExitKind.exited NZBGetPostProcessExitCode.none.value) [])
    ∧ (w.env "NZBPP_TOTALSTATUS" = Option.some "SUCCESS" →
       w.env "NZBPP_DIRECTORY" = Option.some d → w.isdir = false →
      rmMain w = ScriptResult.mk
        (nzbget_log NZBGetLogLevel.info
          ("Nothing to post-process, destination directory \"" ++ d
            ++ "\" doesn\x27t exist.") "")
        (ExitKind.exited NZBGetPostProcessExitCode.none.value) [] Option.none)
    ∧ (v.env "NZBPP_TOTALSTATUS" = Option.some "SUCCESS" →
       v.env "NZBPP_DIRECTORY" = Option.some ds → v.pathExists = false →
      rcMain v = LoopResult.mk
        (nzbget_log NZBGetLogLevel.info
          ("Nothing to post-process, destination \"" ++ ds
            ++ "\" doesn\x27t exist.") "")
        (ExitKind.exited NZBGetPostProcessExitCode.none.value) [])
    ∧ NZBGetPostProcessExitCode.none.value = 95
    ∧ (∀ msg pfx l, l ∈ nzbget_log NZBGetLogLevel.info msg pfx →
        ∃ r, l = "[INFO] " ++ r) := by
  refine ⟨?_, ?_, ?_, ?_, rfl, ?_⟩
  · intro h hs
    simp [rmMain, nzbget_variable, h, hs]
  · intro h hs
    simp [rcMain, nzbget_variable, h, hs]
  · intro h1 h2 h3
    simp [rmMain, nzbget_variable, h1, h2, h3]
  · intro h1 h2 h3
    simp [rcMain, nzbget_variable, h1, h2, h3]
  · intro msg pfx l hl
    obtain ⟨line, hmem, heq⟩ := List.mem_map.mp hl
    refine ⟨pfx ++ line, ?_⟩
    rw [← heq]
    exact String.append_assoc "[INFO] " pfx line

/-- When every walked path either succeeds or raises PermissionError,
the restoremod loop reaches the final success exit. -/
theorem rmLoop_exit_ok (f : String → RMOutcome) :
    ∀ ps : List String, (∀ p ∈ ps, rmOkOrPerm (f p) = true) →
    (rmLoop f ps).exit = ExitKind.exited NZBGetPostProcessExitCode.success.value
  | [], _ => rfl
  | p :: rest, hf => by
    have hp := hf p (List.mem_cons_self p rest)
    have hrest : ∀ q ∈ rest, rmOkOrPerm (f q) = true :=
      fun q hq => hf q (List.mem_cons_of_mem p hq)
    cases hfp : f p with
    | ok ops =>
      simp [rmLoop, hfp]
      exact rmLoop_exit_ok f rest hrest
    | permission =>
      simp [rmLoop, hfp]
      exact rmLoop_exit_ok f rest hrest
    | fileNotFound => rw [hfp] at hp; simp [rmOkOrPerm] at hp
    | other => rw [hfp] at hp; simp [rmOkOrPerm] at hp

/-- When every walked path either succeeds or raises PermissionError,
the restorecon loop reaches the final success exit. -/
theorem rcLoop_exit_ok (g : String → RCOutcome) :
    ∀ qs : List String, (∀ q ∈ qs, rcOkOrPerm (g q) = true) →
    (rcLoop g qs).exit = ExitKind.exited NZBGetPostProcessExitCode.success.value
  | [], _ => rfl
  | q :: rest, hg => by
    have hq := hg q (List.mem_cons_self q rest)
    have hrest : ∀ r ∈ rest, rcOkOrPerm (g r) = true :=
      fun r hr => hg r (List.mem_cons_of_mem q hr)
    cases hgq : g q with
    | ok ops =>
      simp [rcLoop, hgq]
      exact rcLoop_exit_ok g rest hrest
    | permission =>
      simp [rcLoop, hgq]
      exact rcLoop_exit_ok g rest hrest
    | fileNotFound => rw [hgq] at hq; simp [rcOkOrPerm] at hq
    | labelNotFound => rw [hgq] at hq; simp [rcOkOrPerm] at hq
    | other => rw [hgq] at hq; simp [rcOkOrPerm] at hq

/-- In a run whose failures are all PermissionError, the warning lines of
each permission-denied path appear (in order) in the loop log. -/
theorem rmLoop_warn_sublist (f : String → RMOutcome) :
    ∀ ps : List String, (∀ p ∈ ps, rmOkOrPerm (f p) = true) →
    ∀ p, p ∈ ps → f p = RMOutcome.permission →
    List.Sublist
      (nzbget_log NZBGetLogLevel.warning
        ("Permission denied for \"" ++ p ++ "\", skipping.") "")
      (rmLoop f ps).logs
  | [], _, p, hp, _ => absurd hp (List.not_mem_nil p)
  | p' :: rest, hf, p, hp, hperm => by
    have hrest : ∀ q ∈ rest, rmOkOrPerm (f q) = true :=
      fun q hq => hf q (List.mem_cons_of_mem p' hq)
    rcases List.mem_cons.mp hp with heq | hp'
    · subst heq
      simp [rmLoop, hperm]
    · cases hfp : f p' with
      | ok ops =>
        simp [rmLoop, hfp]
        exact rmLoop_warn_sublist f rest hrest p hp' hperm
      | permission =>
        simp [rmLoop, hfp]
        exact (rmLoop_warn_sublist f rest hrest p hp' hperm).trans
          (List.sublist_append_right _ _)
      | fileNotFound =>
        have hp'' := hf p' (List.mem_cons_self p' rest)
        rw [hfp] at hp''
        simp [rmOkOrPerm] at hp''
      | other =>
        have hp'' := hf p' (List.mem_cons_self p' rest)
        rw [hfp] at hp''
        simp [rmOkOrPerm] at hp''

/-- Restorecon counterpart of rmLoop_warn_sublist. -/
theorem rcLoop_warn_sublist (g : String → RCOutcome) :
    ∀ qs : List String, (∀ q ∈ qs, rcOkOrPerm (g q) = true) →
    ∀ q, q ∈ qs → g q = RCOutcome.permission →
    List.Sublist
      (nzbget_log NZBGetLogLevel.warning
        ("Permission denied for \"" ++ q ++ "\", skipping.") "")
      (rcLoop g qs).logs
  | [], _, q, hq, _ => absurd hq (List.not_mem_nil q)
  | q' :: rest, hg, q, hq, hperm => by
    have hrest : ∀ r ∈ rest, rcOkOrPerm (g r) = true :=
      fun r hr => hg r (List.mem_cons_of_mem q' hr)
    rcases List.mem_cons.mp hq with heq | hq'
    · subst heq
      simp [rcLoop, hperm]
    · cases hgq : g q' with
      | ok ops =>
        simp [rcLoop, hgq]
        exact rcLoop_warn_sublist g rest hrest q hq' hperm
      | permission =>
        simp [rcLoop, hgq]
        exact (rcLoop_warn_sublist g rest hrest q hq' hperm).trans
          (List.sublist_append_right _ _)
      | labelNotFound =>
        have hq'' := hg q' (List.mem_cons_self q' rest)
        rw [hgq] at hq''
        simp [rcOkOrPerm] at hq''
      | fileNotFound =>
        have hq'' := hg q' (List.mem_cons_self q' rest)
        rw [hgq] at hq''
        simp [rcOkOrPerm] at hq''
      | other =>
        have hq'' := hg q' (List.mem_cons_self q' rest)
        rw [hgq] at hq''
        simp [rcOkOrPerm] at hq''

/-- C6: in both scripts a PermissionError on a walked path produces the
warning line for that path and the loop continues with the remaining
paths (last two conjuncts: the exact loop step); a run in which every
per-path failure is a PermissionError still ends with the success exit
code 93. -/
theorem permission_denied_skips (f : String → RMOutcome) (g : String → RCOutcome)
    (ps qs : List String)
    (hf : ∀ p ∈ ps, rmOkOrPerm (f p) = true)
    (hg : ∀ q ∈ qs, rcOkOrPerm (g q) = true) :
    (rmLoop f ps).exit = ExitKind.exited NZBGetPostProcessExitCode.success.value
    ∧ (rcLoop g qs).exit = ExitKind.exited NZBGetPostProcessExitCode.success.value
    ∧ NZBGetPostProcessExitCode.success.value = 93
    ∧ (∀ p ∈ ps, f p = RMOutcome.permission →
        List.Sublist
          (nzbget_log NZBGetLogLevel.warning
            ("Permission denied for \"" ++ p ++ "\", skipping.") "")
          (rmLoop f ps).logs)
    ∧ (∀ q ∈ qs, g q = RCOutcome.permission →
        List.Sublist
          (nzbget_log NZBGetLogLevel.warning
            ("Permission denied for \"" ++ q ++ "\", skipping.") "")
          (rcLoop g qs).logs)
    ∧ (∀ p rest, f p = RMOutcome.permission →
        rmLoop f (p :: rest) = LoopResult.mk
          (nzbget_log NZBGetLogLevel.warning
            ("Permission denied for \"" ++ p ++ "\", skipping.") ""
            ++ (rmLoop f rest).logs)
          (rmLoop f rest).exit (rmLoop f rest).ops)
    ∧ (∀ q rest, g q = RCOutcome.permission →
        rcLoop g (q :: rest) = LoopResult.mk
          (nzbget_log NZBGetLogLevel.warning
            ("Permission denied for \"" ++ q ++ "\", skipping.") ""
            ++ (rcLoop g rest).logs)
          (rcLoop g rest).exit (rcLoop g rest).ops) := by
  refine ⟨rmLoop_exit_ok f ps hf, rcLoop_exit_ok g qs hg, rfl,
    rmLoop_warn_sublist f ps hf, rcLoop_warn_sublist g qs hg, ?_, ?_⟩
  · intro p rest h
    simp [rmLoop, h]
  · intro q rest h
    simp [rcLoop, h]

theorem permission_denied_skips_witness :
    (["/d", "/d/a"].all
      (fun p => rmOkOrPerm (rmOutW RestoreChoice.fromPs p)) = true)
    ∧ (["/d", "/d/a"].all (fun q => rcOkOrPerm (rcOutW q)) = true)
    ∧ (rmLoop (rmOutW RestoreChoice.fromPs) ["/d", "/d/a"]).exit
        = ExitKind.exited 93
    ∧ (rcLoop rcOutW ["/d", "/d/a"]).exit = ExitKind.exited 93
    ∧ List.Sublist ["[WARNING] Permission denied for \"/d/a\", skipping."]
        (rmLoop (rmOutW RestoreChoice.fromPs) ["/d", "/d/a"]).logs :=
  ⟨by decide, by decide,
   (permission_denied_skips (rmOutW RestoreChoice.fromPs) rcOutW
      ["/d", "/d/a"] ["/d", "/d/a"] (by decide) (by decide)).1,
   (permission_denied_skips (rmOutW RestoreChoice.fromPs) rcOutW
      ["/d", "/d/a"] ["/d", "/d/a"] (by decide) (by decide)).2.1,
   (permission_denied_skips (rmOutW RestoreChoice.fromPs) rcOutW
      ["/d", "/d/a"] ["/d", "/d/a"] (by decide) (by decide)).2.2.2.1
     "/d/a" (by decide) (by decide)⟩

/-- C4 (amended): provided posix1e.HAS_ACL_ENTRY is true, a run that
passes the status and destination checks selects
restore_from_fs (choice fromFs) exactly when the resolved destination
carries a non-empty default ACL and restore_from_ps (choice fromPs)
otherwise, logs the info lines announcing the chosen mode and then runs
the walk loop with that choice over the walked paths.  (Without
HAS_ACL_ENTRY the script instead logs an error and exits 94 before
walking; see the counterexample.) -/
theorem rmMain_mode_selection (w : RMWorld) (d : String)
    (h1 : w.env "NZBPP_TOTALSTATUS" = Option.some "SUCCESS")
    (h2 : w.env "NZBPP_DIRECTORY" = Option.some d)
    (h3 : w.isdir = true)
    (h4 : w.hasAclEntry = true) :
    rmMain w = ScriptResult.mk
      (nzbget_log NZBGetLogLevel.info
        ((if w.daclNonempty then "Using default ACL to restore permissions of \""
          else "Using process umask to restore permissions of \"")
          ++ w.realdir ++ "\"") ""
        ++ (rmLoop
              (w.outcome (if w.daclNonempty then RestoreChoice.fromFs
                else RestoreChoice.fromPs)) w.paths).logs)
      (rmLoop (w.outcome (if w.daclNonempty then RestoreChoice.fromFs
          else RestoreChoice.fromPs)) w.paths).exit
      (rmLoop (w.outcome (if w.daclNonempty then RestoreChoice.fromFs
          else RestoreChoice.fromPs)) w.paths).ops
      (Option.some (if w.daclNonempty then RestoreChoice.fromFs
          else RestoreChoice.fromPs)) := by
  cases hda : w.daclNonempty <;>
    simp [rmMain, nzbget_variable, h1, h2, h3, h4, hda]

/-- C4 counterexample to the claim as stated: with a non-empty default
ACL on a library build without posix1e.HAS_ACL_ENTRY, the run logs no
info line announcing a mode and exits 94 without walking the (non-empty)
path list, while the claim says a mode is selected, announced by one
info line, and applied to every walked path. -/
theorem rmMain_mode_selection_counterexample :
    rmMain (RMWorld.mk envOk true "/d" true false ["/d"] rmOutW)
      = ScriptResult.mk
          ["[ERROR] Unable to alter ACLs: detected default ACL on \"/d\""]
          (ExitKind.exited 94) [] (Option.some RestoreChoice.fromFs)
    ∧ ((rmMain (RMWorld.mk envOk true "/d" true false ["/d"] rmOutW)).logs.all
        (fun l => !(isInfoLine l)) = true)
    ∧ (["/d"] : List String) ≠ [] := by
  refine ⟨by decide, by decide, by decide⟩

theorem rmMain_mode_selection_witness :
    envOk "NZBPP_TOTALSTATUS" = Option.some "SUCCESS"
    ∧ envOk "NZBPP_DIRECTORY" = Option.some "/d"
    ∧ rmMain (RMWorld.mk envOk true "/d" true true [] rmOutW)
      = ScriptResult.mk
          ["[INFO] Using default ACL to restore permissions of \"/d\""]
          (ExitKind.exited 93) [] (Option.some RestoreChoice.fromFs)
    ∧ rmMain (RMWorld.mk envOk true "/d" false true [] rmOutW)
      = ScriptResult.mk
          ["[INFO] Using process umask to restore permissions of \"/d\""]
          (ExitKind.exited 93) [] (Option.some RestoreChoice.fromPs) :=
  ⟨rfl, rfl,
   (rmMain_mode_selection (RMWorld.mk envOk true "/d" true true [] rmOutW)
      "/d" rfl rfl rfl rfl).trans (by decide),
   (rmMain_mode_selection (RMWorld.mk envOk true "/d" false true [] rmOutW)
      "/d" rfl rfl rfl rfl).trans (by decide)⟩

/-! ## C7: the walk enumeration -/

theorem walkFlat_dir (p : FsPath) (nm : String) (cs : FSForest) :
    walkFlat p (FSTree.dir nm cs)
      = (dirEntryNames cs ++ fileEntryNames cs).map (fun n => p ++ [n])
        ++ walkFlatF p cs := by
  simp [walkFlat, walk, walkFlatF, triplePaths]

theorem walkFlatF_cons (p : FsPath) (c : FSTree) (cs : FSForest) :
    walkFlatF p (FSForest.cons c cs)
      = walkFlat (p ++ [treeName c]) c ++ walkFlatF p cs := by
  simp [walkFlatF, walkF, walkFlat]

/-- The dirnames and filenames of one os.walk triple are together a
permutation of the children names. -/
theorem entryNames_perm : ∀ cs : FSForest,
    (dirEntryNames cs ++ fileEntryNames cs).Perm (forestNames cs)
  | FSForest.nil => List.Perm.refl []
  | FSForest.cons c cs => by
    cases hc : treeIsDir c
    · simp only [dirEntryNames, fileEntryNames, forestNames, hc, if_neg,
        Bool.false_eq_true, not_false_eq_true, List.nil_append,
        List.singleton_append]
      exact List.Perm.trans List.perm_middle
        ((entryNames_perm cs).cons (treeName c))
    · simp only [dirEntryNames, fileEntryNames, forestNames, hc, if_pos,
        List.singleton_append, List.cons_append]
      exact (entryNames_perm cs).cons (treeName c)

mutual
/-- The paths yielded by descendants are a permutation of the node paths
of the tree. -/
theorem descendants_perm_nodePaths : ∀ (p : FsPath) (t : FSTree),
    (descendants p t).Perm (nodePaths p t)
  | p, FSTree.file nm => by
    simp [descendants, nodePaths, walk]
  | p, FSTree.dir nm cs => by
    have hA : (walkFlat p (FSTree.dir nm cs)).Perm
        ((forestNames cs).map (fun n => p ++ [n]) ++ walkFlatF p cs) := by
      rw [walkFlat_dir]
      exact List.Perm.append_right _ ((entryNames_perm cs).map _)
    exact (hA.trans (forest_perm p cs)).cons p
/-- The mapped children names followed by the flattened sub-walks are a
permutation of the forest node paths. -/
theorem forest_perm : ∀ (p : FsPath) (cs : FSForest),
    ((forestNames cs).map (fun n => p ++ [n]) ++ walkFlatF p cs).Perm
      (nodePathsF p cs)
  | p, FSForest.nil => by
    simp [forestNames, walkFlatF, walkF, nodePathsF]
  | p, FSForest.cons c cs => by
    rw [show forestNames (FSForest.cons c cs) = treeName c :: forestNames cs
          from rfl,
        List.map_cons, walkFlatF_cons,
        show nodePathsF p (FSForest.cons c cs)
          = nodePaths (p ++ [treeName c]) c ++ nodePathsF p cs from rfl,
        List.cons_append]
    have hswap : (((forestNames cs).map (fun n => p ++ [n]))
          ++ (walkFlat (p ++ [treeName c]) c ++ walkFlatF p cs)).Perm
        (walkFlat (p ++ [treeName c]) c
          ++ (((forestNames cs).map (fun n => p ++ [n])) ++ walkFlatF p cs)) := by
      rw [← List.append_assoc, ← List.append_assoc]
      exact List.Perm.append_right _ List.perm_append_comm
    have h2 := List.Perm.append_left (walkFlat (p ++ [treeName c]) c)
      (forest_perm p cs)
    have h3 := (hswap.trans h2).cons (p ++ [treeName c])
    refine h3.trans ?_
    exact (descendants_perm_nodePaths (p ++ [treeName c]) c).append_right _
end

mutual
/-- Every node path below p extends p. -/
theorem mem_nodePaths : ∀ (p : FsPath) (t : FSTree) (q : FsPath),
    q ∈ nodePaths p t → ∃ r, q = p ++ r
  | p, FSTree.file nm, q, hq => by
    simp only [nodePaths, List.mem_singleton] at hq
    exact ⟨[], by simp [hq]⟩
  | p, FSTree.dir nm cs, q, hq => by
    rcases List.mem_cons.mp hq with heq | hq'
    · exact ⟨[], by simp [heq]⟩
    · obtain ⟨x, r, _, hxr⟩ := mem_nodePathsF p cs q hq'
      exact ⟨x :: r, hxr⟩
/-- Every forest node path extends p by one of the children names. -/
theorem mem_nodePathsF : ∀ (p : FsPath) (cs : FSForest) (q : FsPath),
    q ∈ nodePathsF p cs → ∃ x r, x ∈ forestNames cs ∧ q = p ++ x :: r
  | p, FSForest.cons c cs, q, hq => by
    rcases List.mem_append.mp hq with hl | hr
    · obtain ⟨r, hqe⟩ := mem_nodePaths (p ++ [treeName c]) c q hl
      refine ⟨treeName c, r, List.mem_cons_self _ _, ?_⟩
      rw [hqe, List.append_assoc]
      rfl
    · obtain ⟨x, r, hx, hxr⟩ := mem_nodePathsF p cs q hr
      exact ⟨x, r, List.mem_cons_of_mem _ hx, hxr⟩
end

/-- Every forest node path is longer than p and carries, at position
length p, the name of the child it descends through. -/
theorem nodePathsF_getElem (p : FsPath) (cs : FSForest) (q : FsPath)
    (h : q ∈ nodePathsF p cs) :
    ∃ x, x ∈ forestNames cs ∧ q[p.length]? = Option.some x
      ∧ p.length < q.length := by
  obtain ⟨x, r, hx, hxr⟩ := mem_nodePathsF p cs q h
  subst hxr
  refine ⟨x, hx, ?_, ?_⟩
  · rw [List.getElem?_append_right (Nat.le_refl p.length)]
    simp
  · simp

theorem namesDistinct_cons {x : String} {xs : List String}
    (h : namesDistinct (x :: xs) = true) : ¬ x ∈ xs ∧ namesDistinct xs = true := by
  have h' := h
  unfold namesDistinct at h'
  rw [Bool.and_eq_true, Bool.not_eq_true'] at h'
  refine ⟨?_, h'.2⟩
  intro hmem
  rw [← List.elem_iff] at hmem
  rw [h'.1] at hmem
  cases hmem

mutual
/-- The node paths of a well-formed tree are pairwise distinct. -/
theorem nodePaths_nodup : ∀ (p : FsPath) (t : FSTree),
    wellFormed t = true → (nodePaths p t).Nodup
  | _, FSTree.file nm, _ => List.nodup_singleton _
  | p, FSTree.dir nm cs, hwf => by
    have hwf' := hwf
    unfold wellFormed at hwf'
    rw [Bool.and_eq_true] at hwf'
    refine List.nodup_cons.mpr ⟨?_, nodePathsF_nodup p cs hwf'.1 hwf'.2⟩
    intro hmem
    obtain ⟨x, _, _, hlen⟩ := nodePathsF_getElem p cs p hmem
    exact absurd hlen (by omega)
/-- Forest counterpart of nodePaths_nodup. -/
theorem nodePathsF_nodup : ∀ (p : FsPath) (cs : FSForest),
    namesDistinct (forestNames cs) = true → wellFormedF cs = true →
    (nodePathsF p cs).Nodup
  | _, FSForest.nil, _, _ => List.nodup_nil
  | p, FSForest.cons c cs, hnames, hwf => by
    have hwf' := hwf
    unfold wellFormedF at hwf'
    rw [Bool.and_eq_true] at hwf'
    have hn := namesDistinct_cons (by
      rw [show forestNames (FSForest.cons c cs) = treeName c :: forestNames cs
            from rfl] at hnames
      exact hnames)
    refine List.nodup_append.mpr
      ⟨nodePaths_nodup (p ++ [treeName c]) c hwf'.1,
       nodePathsF_nodup p cs hn.2 hwf'.2, ?_⟩
    intro q hq hq'
    obtain ⟨r, hqe⟩ := mem_nodePaths (p ++ [treeName c]) c q hq
    obtain ⟨x, hx, hgx, _⟩ := nodePathsF_getElem p cs q hq'
    have hgc : q[p.length]? = Option.some (treeName c) := by
      rw [hqe, List.append_assoc, List.getElem?_append_right (Nat.le_refl p.length)]
      simp
    rw [hgc] at hgx
    obtain rfl : treeName c = x := Option.some.inj hgx
    exact hn.1 hx
end

theorem treeName_mem_forestNames : ∀ (cs : FSForest) (c : FSTree),
    c ∈ forestTrees cs → treeName c ∈ forestNames cs
  | FSForest.nil, c, h => absurd h (List.not_mem_nil c)
  | FSForest.cons c' cs, c, h => by
    rcases List.mem_cons.mp h with heq | h'
    · subst heq
      exact List.mem_cons_self _ _
    · exact List.mem_cons_of_mem _ (treeName_mem_forestNames cs c h')

/-- A child path of the walked root appears among the paths yielded
right after the root. -/
theorem root_child_sublist (p : FsPath) (nm : String) (cs : FSForest)
    (nmc : String) (h : nmc ∈ forestNames cs) :
    List.Sublist [p, p ++ [nmc]] (descendants p (FSTree.dir nm cs)) := by
  have h1 : nmc ∈ dirEntryNames cs ++ fileEntryNames cs :=
    ((entryNames_perm cs).mem_iff).mpr h
  have h2 : p ++ [nmc] ∈ walkFlat p (FSTree.dir nm cs) := by
    rw [walkFlat_dir]
    exact List.mem_append_left _ (List.mem_map_of_mem _ h1)
  show List.Sublist (p :: [p ++ [nmc]]) (p :: walkFlat p (FSTree.dir nm cs))
  exact List.Sublist.cons₂ p (List.singleton_sublist.mpr h2)

theorem walkFlat_sublist : ∀ (p : FsPath) (cs : FSForest) (c : FSTree),
    c ∈ forestTrees cs →
    List.Sublist (walkFlat (p ++ [treeName c]) c) (walkFlatF p cs)
  | _, FSForest.nil, c, h => absurd h (List.not_mem_nil c)
  | p, FSForest.cons c' cs, c, h => by
    rw [walkFlatF_cons]
    rcases List.mem_cons.mp h with heq | h'
    · subst heq
      exact List.sublist_append_left _ _
    · exact (walkFlat_sublist p cs c h').trans (List.sublist_append_right _ _)

theorem cons_sublist_append {α : Type} {a : α} {A W L : List α}
    (ha : a ∈ A) (hw : List.Sublist W L) :
    List.Sublist (a :: W) (A ++ L) := by
  induction A with
  | nil => exact absurd ha (List.not_mem_nil a)
  | cons x A ih =>
    rcases List.mem_cons.mp ha with heq | ha'
    · subst heq
      exact List.Sublist.cons₂ a (hw.trans (List.sublist_append_right A L))
    · exact List.Sublist.cons x (ih ha')

/-- The full enumeration of a child subtree is a subsequence of the
enumeration of its parent. -/
theorem descendants_sublist (p : FsPath) (nm : String) (cs : FSForest)
    (c : FSTree) (h : c ∈ forestTrees cs) :
    List.Sublist (descendants (p ++ [treeName c]) c)
      (descendants p (FSTree.dir nm cs)) := by
  have hmem : p ++ [treeName c]
      ∈ (dirEntryNames cs ++ fileEntryNames cs).map (fun n => p ++ [n]) :=
    List.mem_map_of_mem _
      (((entryNames_perm cs).mem_iff).mpr (treeName_mem_forestNames cs c h))
  show List.Sublist
    ((p ++ [treeName c]) :: walkFlat (p ++ [treeName c]) c)
    (p :: walkFlat p (FSTree.dir nm cs))
  refine List.Sublist.cons p ?_
  rw [walkFlat_dir]
  exact cons_sublist_append hmem (walkFlat_sublist p cs c h)

mutual
/-- Every directory node is yielded before each of its children. -/
theorem dirNodes_sublist : ∀ (p : FsPath) (t : FSTree)
    (x : FsPath × List String), x ∈ dirNodes p t → ∀ nmc ∈ x.2,
    List.Sublist [x.1, x.1 ++ [nmc]] (descendants p t)
  | _, FSTree.file nm, x, hx => absurd hx (List.not_mem_nil x)
  | p, FSTree.dir nm cs, x, hx => by
    intro nmc hn
    rcases List.mem_cons.mp hx with heq | hx'
    · subst heq
      exact root_child_sublist p nm cs nmc hn
    · obtain ⟨c, hc, hsub⟩ := dirNodesF_sublist p cs x hx' nmc hn
      exact hsub.trans (descendants_sublist p nm cs c hc)
/-- Forest counterpart of dirNodes_sublist. -/
theorem dirNodesF_sublist : ∀ (p : FsPath) (cs : FSForest)
    (x : FsPath × List String), x ∈ dirNodesF p cs → ∀ nmc ∈ x.2,
    ∃ c ∈ forestTrees cs,
      List.Sublist [x.1, x.1 ++ [nmc]] (descendants (p ++ [treeName c]) c)
  | _, FSForest.nil, x, hx => absurd hx (List.not_mem_nil x)
  | p, FSForest.cons c' cs, x, hx => by
    intro nmc hn
    rcases List.mem_append.mp hx with hl | hr
    · exact ⟨c', List.mem_cons_self _ _,
        dirNodes_sublist (p ++ [treeName c']) c' x hl nmc hn⟩
    · obtain ⟨c, hc, hsub⟩ := dirNodesF_sublist p cs x hr nmc hn
      exact ⟨c, List.mem_cons_of_mem _ hc, hsub⟩
end

/-- C7: descendants yields the root path p first and then every node of
the tree (p itself and every directory and file strictly below it): the
yielded paths are a permutation of the node paths and, when sibling
names are distinct, pairwise distinct (so each node path appears exactly
once); and every
directory node is yielded before each of its children.  A loop over
descendants therefore applies the per-path operation exactly once per
path in a single pass. -/
theorem descendants_spec (p : FsPath) (t : FSTree) :
    (descendants p t).head? = Option.some p
    ∧ (descendants p t).Perm (nodePaths p t)
    ∧ (wellFormed t = true → (descendants p t).Nodup)
    ∧ (∀ x ∈ dirNodes p t, ∀ nmc ∈ x.2,
        List.Sublist [x.1, x.1 ++ [nmc]] (descendants p t)) := by
  refine ⟨rfl, descendants_perm_nodePaths p t, ?_, dirNodes_sublist p t⟩
  intro hwf
  exact ((descendants_perm_nodePaths p t).nodup_iff).mpr
    (nodePaths_nodup p t hwf)

theorem descendants_spec_witness :
    wellFormed tW = true
    ∧ (["dst", "a", "x"] : FsPath) ∈ nodePaths ["dst"] tW
    ∧ (descendants ["dst"] tW).Nodup
    ∧ (["dst", "a"], ["x"]) ∈ dirNodes ["dst"] tW
    ∧ List.Sublist [["dst", "a"], ["dst", "a", "x"]] (descendants ["dst"] tW) :=
  ⟨by decide, by decide,
   (descendants_spec ["dst"] tW).2.2.1 (by decide),
   by decide,
   (descendants_spec ["dst"] tW).2.2.2 (["dst", "a"], ["x"]) (by decide) "x"
     (by decide)⟩

theorem skip_runs_spec_witness :
    envFailed "NZBPP_TOTALSTATUS" = Option.some "FAILURE"
    ∧ ("FAILURE" : String) ≠ "SUCCESS"
    ∧ rmMain (RMWorld.mk envFailed true "/d" false true ["/d"] rmOutW)
      = ScriptResult.mk ["[INFO] Download failed with status FAILURE, skipping."]
          (ExitKind.exited 95) [] Option.none
    ∧ rcMain (RCWorld.mk envOk false ["/d"] rcOutW)
      = LoopResult.mk
          ["[INFO] Nothing to post-process, destination \"/d\" doesn\x27t exist."]
          (ExitKind.exited 95) [] :=
  ⟨rfl, by decide,
   ((skip_runs_spec (RMWorld.mk envFailed true "/d" false true ["/d"] rmOutW)
       (RCWorld.mk envOk false ["/d"] rcOutW) "FAILURE" "/d" "/d").1
      rfl (by decide)).trans (by decide),
   ((skip_runs_spec (RMWorld.mk envFailed true "/d" false true ["/d"] rmOutW)
       (RCWorld.mk envOk false ["/d"] rcOutW) "FAILURE" "/d" "/d").2.2.2.1
      rfl rfl rfl).trans (by decide)⟩
